import Mathlib

/-!
Verification development for the LiteLLM client module `dspy/clients/lm.py`.

The module is embedded shallowly: the request serialization performed by
`LM.__call__` (ujson.dumps of an insertion-ordered dict), the two lru_cache
memoization tables wrapping the transport, the transport's cache-control
directives, history recording, the o1 construction guard, the launch/kill
lifecycle hooks and the fine-tuning dispatch.  The litellm transport and the
provider predicates (`is_openai_model`, `is_anyscale_model`,
`is_self_hosted_model`) live outside this module and are parameters of the
embedding; transport invocations are logged in an explicit state so that
call-count properties can be stated.
-/

namespace DspyLM

/-- Atomic JSON parameter values.  Floats are modelled as rationals and
integers as integers; `renderNum` below is a fixed deterministic stand-in for
ujson's number formatting (the exact digits never matter to the properties,
only determinism and insertion order do). -/
inductive JVal where
  | jnull : JVal
  | jbool : Bool → JVal
  | jint : ℤ → JVal
  | jnum : ℚ → JVal
  | jstr : String → JVal
  deriving DecidableEq, Repr

/-- Python substring membership (`needle in hay`) on character lists. -/
def listContains (needle : List Char) : List Char → Bool
  | [] => needle.isEmpty
  | c :: rest => needle.isPrefixOf (c :: rest) || listContains needle rest

/-- Python substring membership on strings. -/
def strContains (hay needle : String) : Bool := listContains needle.data hay.data

/-- Deterministic rendering of a rational parameter value. -/
def renderNum (q : ℚ) : String := toString q.num ++ "/" ++ toString q.den

/-- Rendering of one atomic JSON value, mirroring ujson output shape. -/
def renderJVal : JVal → String
  | .jnull => "null"
  | .jbool true => "true"
  | .jbool false => "false"
  | .jint n => toString n
  | .jnum q => renderNum q
  | .jstr s => "\"" ++ s ++ "\""

/-- One chat message: a role and a content that may be Python None. -/
structure Message where
  role : String
  content : Option String
  deriving DecidableEq, Repr

/-- Rendering of a message content (None becomes null). -/
def renderContent : Option String → String
  | some s => "\"" ++ s ++ "\""
  | none => "null"

/-- Rendering of one message dict, keys in their insertion order. -/
def renderMessage (m : Message) : String :=
  "\x7b\"role\":\"" ++ m.role ++ "\",\"content\":" ++ renderContent m.content ++ "\x7d"

/-- Comma-separated concatenation, as in a JSON array body. -/
def joinComma : List String → String
  | [] => ""
  | [s] => s
  | s :: rest => s ++ "," ++ joinComma rest

/-- Rendering of the messages array. -/
def renderMessages (ms : List Message) : String :=
  "[" ++ joinComma (ms.map renderMessage) ++ "]"

/-- Rendering of one key/value pair of the request dict. -/
def renderPair (p : String × JVal) : String :=
  "\"" ++ p.1 ++ "\":" ++ renderJVal p.2

/-- Rendering of the kwargs pairs that follow the messages entry; each is
preceded by the separating comma. -/
def renderPairsTail : List (String × JVal) → String
  | [] => ""
  | p :: rest => "," ++ renderPair p ++ renderPairsTail rest

/-- Line 63 of lm.py: `ujson.dumps(dict(model=self.model, messages=messages,
**kwargs))`.  ujson serializes dict keys in insertion order: first `model`,
then `messages`, then the merged kwargs in their merged order.  No key
sorting takes place. -/
def serializeRequest (model : String) (messages : List Message)
    (kwargs : List (String × JVal)) : String :=
  "\x7b\"model\":\"" ++ model ++ "\",\"messages\":" ++ renderMessages messages
    ++ renderPairsTail kwargs ++ "\x7d"

/-- Membership of a key in an insertion-ordered dict. -/
def containsKey (d : List (String × JVal)) (k : String) : Bool :=
  d.any (fun p => p.1 == k)

/-- First-occurrence lookup in an insertion-ordered dict. -/
def lookupVal : List (String × JVal) → String → Option JVal
  | [], _ => none
  | p :: rest, k => if p.1 == k then some p.2 else lookupVal rest k

/-- Python dict update of one key: overriding an existing key keeps its
original position, a fresh key is appended at the end. -/
def dictInsert (d : List (String × JVal)) (k : String) (v : JVal) :
    List (String × JVal) :=
  if containsKey d k then d.map (fun p => if p.1 == k then (k, v) else p)
  else d ++ [(k, v)]

/-- Line 57 of lm.py: the Python double-splat merge of the instance defaults
with the per-call overrides, overrides winning on key collision. -/
def dictMerge (a b : List (String × JVal)) : List (String × JVal) :=
  b.foldl (fun d p => dictInsert d p.1 p.2) a

/-- One completion choice: either a chat choice carrying a message attribute
with a content, or a plain text choice. -/
inductive Choice where
  | chat : String → Choice
  | text : String → Choice
  deriving DecidableEq, Repr

/-- A transport response: the choices, the usage dict, and the hidden
response cost metadata when the transport reports one. -/
structure Response where
  choices : List Choice
  usage : List (String × JVal)
  cost : Option ℚ
  deriving DecidableEq, Repr

/-- The cache-control directive handed to the transport. -/
structure CacheControl where
  noCache : Bool
  noStore : Bool
  deriving DecidableEq, Repr

/-- Directive passed by the cached wrappers (lines 129 and 137). -/
def cachedDirective : CacheControl := ⟨false, false⟩

/-- Default directive of litellm_completion and litellm_text_completion
(lines 131 and 139): no-cache and no-store both set. -/
def uncachedDirective : CacheControl := ⟨true, true⟩

/-- The litellm transport, an external collaborator: takes the serialized
request and a cache directive, returns a response or raises. -/
abbrev Backend := String → CacheControl → Except String Response

/-- Process-wide caching state: the two unbounded lru_cache tables (one per
completion flavor) and the log of transport invocations with the directive
each one carried. -/
structure CacheState where
  chatMemo : List (String × Response)
  textMemo : List (String × Response)
  invocations : List (String × CacheControl)
  deriving DecidableEq, Repr

/-- Lookup in an lru_cache table. -/
def lookupMemo : List (String × Response) → String → Option Response
  | [], _ => none
  | p :: rest, k => if p.1 == k then some p.2 else lookupMemo rest k

/-- Lines 131-133: the uncached chat completion; always hits the transport,
with the given directive.  The ujson.loads round-trip and the provider
argument plumbing are folded into the Backend collaborator. -/
def litellm_completion (backend : Backend) (st : CacheState) (request : String)
    (cache : CacheControl) : Except String Response × CacheState :=
  (backend request cache,
   { st with invocations := st.invocations ++ [(request, cache)] })

/-- Lines 127-129: the lru_cache wrapper over litellm_completion.  A present
key is served from the table without touching the transport; a missing key
computes through the transport with the store-enabled directive and, on
success only (lru_cache never caches exceptions), records the result. -/
def cached_litellm_completion (backend : Backend) (st : CacheState)
    (request : String) : Except String Response × CacheState :=
  match lookupMemo st.chatMemo request with
  | some r => (.ok r, st)
  | none =>
    match litellm_completion backend st request cachedDirective with
    | (.ok r, st') => (.ok r, { st' with chatMemo := st'.chatMemo ++ [(request, r)] })
    | (.error e, st') => (.error e, st')

/-- Lines 139-154: the uncached text completion.  The model/provider split,
api key extraction and prompt joining are transformations of the request on
its way to the transport and are folded into the Backend collaborator; the
observable modelled here is the single transport invocation with the given
directive. -/
def litellm_text_completion (backend : Backend) (st : CacheState)
    (request : String) (cache : CacheControl) : Except String Response × CacheState :=
  (backend request cache,
   { st with invocations := st.invocations ++ [(request, cache)] })

/-- Lines 135-137: the lru_cache wrapper over litellm_text_completion. -/
def cached_litellm_text_completion (backend : Backend) (st : CacheState)
    (request : String) : Except String Response × CacheState :=
  match lookupMemo st.textMemo request with
  | some r => (.ok r, st)
  | none =>
    match litellm_text_completion backend st request cachedDirective with
    | (.ok r, st') => (.ok r, { st' with textMemo := st'.textMemo ++ [(request, r)] })
    | (.error e, st') => (.error e, st')

/-- One record of `self.history`. -/
structure HistoryEntry where
  prompt : Option String
  messages : List Message
  kwargs : List (String × JVal)
  response : Response
  outputs : List String
  usage : List (String × JVal)
  cost : Option ℚ
  deriving DecidableEq, Repr

/-- The LM client state: configuration fixed at construction plus the
append-only history. -/
structure LM where
  model : String
  model_type : String
  cache : Bool
  kwargs : List (String × JVal)
  history : List HistoryEntry
  deriving DecidableEq, Repr

/-- Lines 41-50: LM.__init__.  The kwargs dict starts with temperature and
max_tokens, then the extra kwargs, in that insertion order.  When the model
identifier contains the substring o1- the assert requires
max_tokens >= 5000 and temperature == 1.0, failing construction otherwise. -/
def LM.init (model : String) (model_type : String) (temperature : ℚ)
    (max_tokens : ℤ) (cache : Bool) (kwargs : List (String × JVal)) :
    Except String LM :=
  let lm : LM :=
    { model := model, model_type := model_type, cache := cache,
      kwargs := [("temperature", .jnum temperature), ("max_tokens", .jint max_tokens)] ++ kwargs,
      history := [] }
  if strContains model "o1-" then
    if max_tokens ≥ 5000 ∧ temperature = 1 then .ok lm
    else .error "OpenAI o1 models require temperature 1.0 and max_tokens at least 5000"
  else .ok lm

/-- Line 56 of lm.py: `messages = messages or [dict role user, content prompt]`.
Python `or` takes the right operand when messages is None or the empty
list, both being falsy. -/
def effectiveMessages (prompt : Option String) (messages : Option (List Message)) :
    List Message :=
  match messages with
  | some (m :: rest) => m :: rest
  | some [] => [⟨"user", prompt⟩]
  | none => [⟨"user", prompt⟩]

/-- The canonical serialized request string built on line 63, the cache key. -/
def buildRequest (lm : LM) (prompt : Option String)
    (messages : Option (List Message)) (ovr : List (String × JVal)) : String :=
  serializeRequest lm.model (effectiveMessages prompt messages) (dictMerge lm.kwargs ovr)

/-- Line 67: detection of credential-looking parameter keys. -/
def isApiKeyParam (k : String) : Bool := "api_".data.isPrefixOf k.data

/-- Line 67: the kwargs recorded in history, with api_-prefixed keys removed. -/
def scrubKwargs (kwargs : List (String × JVal)) : List (String × JVal) :=
  kwargs.filter (fun p => !isApiKeyParam p.1)

/-- Line 64: a chat choice yields its message content, a text choice its
text field. -/
def extractOutput : Choice → String
  | .chat content => content
  | .text t => t

/-- Result of one LM.__call__ invocation: the returned outputs or the raised
error, the client state, and the caching state. -/
structure CallResult where
  ret : Except String (List String)
  lm : LM
  cst : CacheState
  deriving Repr

/-- Lines 60-61: the completion function selected by model type and the
effective cache flag. -/
def routeCompletion (backend : Backend) (lm : LM) (cst : CacheState)
    (cache : Bool) (request : String) : Except String Response × CacheState :=
  if lm.model_type == "chat" then
    if cache then cached_litellm_completion backend cst request
    else litellm_completion backend cst request uncachedDirective
  else
    if cache then cached_litellm_text_completion backend cst request
    else litellm_text_completion backend cst request uncachedDirective

/-- Lines 64-73: output extraction and history recording on success; an
error from the completion call propagates and leaves the client unchanged. -/
def mkResult (lm : LM) (prompt : Option String) (messages : Option (List Message))
    (ovr : List (String × JVal)) :
    Except String Response × CacheState → CallResult
  | (.error e, cst') => ⟨.error e, lm, cst'⟩
  | (.ok r, cst') =>
    ⟨.ok (r.choices.map extractOutput),
     { lm with history := lm.history ++
        [⟨prompt, effectiveMessages prompt messages,
          scrubKwargs (dictMerge lm.kwargs ovr), r,
          r.choices.map extractOutput, r.usage, r.cost⟩] },
     cst'⟩

/-- Lines 53-73: LM.__call__.  The cache argument is popped from the
per-call kwargs before the merge, so it is modelled as a separate optional
argument defaulting to the instance flag. -/
def LM.call (backend : Backend) (lm : LM) (cst : CacheState)
    (prompt : Option String) (messages : Option (List Message))
    (cacheArg : Option Bool) (ovr : List (String × JVal)) : CallResult :=
  mkResult lm prompt messages ovr
    (routeCompletion backend lm cst (cacheArg.getD lm.cache)
      (buildRequest lm prompt messages ovr))

/-- The arguments of one LM.__call__ invocation. -/
structure CallInput where
  prompt : Option String
  messages : Option (List Message)
  cacheArg : Option Bool
  ovr : List (String × JVal)
  deriving DecidableEq, Repr

/-- Sequential execution of a list of LM.__call__ invocations on one client,
collecting each call's outcome. -/
def runCalls (backend : Backend) :
    List CallInput → LM × CacheState →
    List (Except String (List String)) × LM × CacheState
  | [], s => ([], s.1, s.2)
  | i :: rest, (lm, cst) =>
    let r := LM.call backend lm cst i.prompt i.messages i.cacheArg i.ovr
    let (rets, lm', cst') := runCalls backend rest (r.lm, r.cst)
    (r.ret :: rets, lm', cst')

/-- Lines 192-196: self_hosted_model_launch is a pass statement. -/
def self_hosted_model_launch (lm : LM) : LM := lm

/-- Lines 199-202: self_hosted_model_kill is a pass statement. -/
def self_hosted_model_kill (lm : LM) : LM := lm

/-- Lines 78-82: LM.launch.  The self-hosted predicate is imported from an
external module and is a parameter; the debug log has no client effect. -/
def LM.launch (is_self_hosted_model : String → Bool) (lm : LM) : LM :=
  if is_self_hosted_model lm.model then self_hosted_model_launch lm else lm

/-- Lines 84-88: LM.kill, symmetric to launch. -/
def LM.kill (is_self_hosted_model : String → Bool) (lm : LM) : LM :=
  if is_self_hosted_model lm.model then self_hosted_model_kill lm else lm

/-- The provider-specific job handles constructed on lines 102 and 106. -/
inductive FinetuneJob where
  | openaiJob : FinetuneJob
  | anyscaleJob : FinetuneJob
  deriving DecidableEq, Repr

/-- One submission to a ThreadPoolExecutor: the job handle handed to the
background task, the worker count of the executor, and whether its shutdown
waits for completion (lines 114-122 use one worker and wait=False). -/
structure SubmitEvent where
  job : FinetuneJob
  maxWorkers : Nat
  shutdownWait : Bool
  deriving DecidableEq, Repr

/-- Lines 90-124: LM.finetune.  The experimental flag and the two provider
predicates are external collaborators and are parameters.  The result is the
synchronous outcome (the job handle or the raised error) together with the
list of background submissions performed. -/
def LM.finetune (is_openai_model is_anyscale_model : String → Bool)
    (experimental : Bool) (lm : LM)
    (_pairs : List (Message × String)) (_config : List (String × JVal)) :
    Except String FinetuneJob × List SubmitEvent :=
  if !experimental then
    (.error "Fine-tuning is an experimental feature and requires settings.experimental True", [])
  else if is_openai_model lm.model then
    (.ok .openaiJob, [⟨.openaiJob, 1, false⟩])
  else if is_anyscale_model lm.model then
    (.ok .anyscaleJob, [⟨.anyscaleJob, 1, false⟩])
  else
    (.error "Fine-tuning is not supported for the model", [])

/-! Concrete fixtures used by witnesses and counterexamples. -/

/-- A client as constructed by `LM("openai/gpt-4o")` with the defaults of
LM.__init__. -/
def lm0 : LM :=
  { model := "openai/gpt-4o", model_type := "chat", cache := true,
    kwargs := [("temperature", .jnum 0), ("max_tokens", .jint 1000)],
    history := [] }

/-- A transport response carrying one chat choice and a reported cost. -/
def demoResponse : Response :=
  ⟨[.chat "4"], [("total_tokens", .jint 10)], some 3⟩

/-- A deterministic successful transport. -/
def demoBackend : Backend := fun _ _ => .ok demoResponse

/-- A transport whose completion call always raises. -/
def errBackend : Backend := fun _ _ => .error "boom"

/-- The empty caching state of a fresh process. -/
def cst0 : CacheState := ⟨[], [], []⟩

/-- A client whose extra kwargs carry a credential parameter. -/
def lmApi : LM :=
  { model := "openai/gpt-4o", model_type := "chat", cache := true,
    kwargs := [("temperature", .jnum 0), ("max_tokens", .jint 1000),
               ("api_key", .jstr "sk-secret")],
    history := [] }

/-- First of two identical sequential calls against the successful
transport. -/
def c2first : CallResult := LM.call demoBackend lm0 cst0 (some "2+2=") none none []

/-- Second of the two identical sequential calls, continuing from the state
left by the first. -/
def c2second : CallResult :=
  LM.call demoBackend c2first.lm c2first.cst (some "2+2=") none none []

/-- Success flag of an Except outcome. -/
def isOkE {ε α : Type} : Except ε α → Bool
  | .ok _ => true
  | .error _ => false

/-- Repetition of one and the same invocation. -/
def repeatCall (b : Backend) (p : Option String) (m : Option (List Message))
    (c : Option Bool) (o : List (String × JVal)) :
    Nat → LM × CacheState → LM × CacheState
  | 0, s => s
  | n + 1, (lm, cst) =>
    repeatCall b p m c o n
      ((LM.call b lm cst p m c o).lm, (LM.call b lm cst p m c o).cst)

/-! General helper lemmas. -/

/-- The fixture client is exactly what LM.__init__ produces. -/
theorem lm0_reachable :
    (LM.init "openai/gpt-4o" "chat" 0 1000 true []).toOption = some lm0 := by
  decide

/-- String concatenation is associative. -/
theorem strAppendAssoc (a b c : String) : a ++ b ++ c = a ++ (b ++ c) := by
  apply String.ext
  simp [String.data_append, List.append_assoc]

/-- Appending a fresh entry to a memo table makes its key found. -/
theorem lookupMemo_append_self (mem : List (String × Response)) (k : String)
    (r : Response) (h : lookupMemo mem k = none) :
    lookupMemo (mem ++ [(k, r)]) k = some r := by
  induction mem with
  | nil => simp [lookupMemo]
  | cons p rest ih =>
    simp only [lookupMemo, List.cons_append] at h ⊢
    split at h
    · exact absurd h (by simp)
    · rename_i hne
      rw [if_neg hne]
      exact ih h

/-- One LM.__call__ either raises and leaves the client untouched or
succeeds and appends exactly one history entry. -/
theorem call_cases (b : Backend) (lm : LM) (cst : CacheState) (p : Option String)
    (m : Option (List Message)) (c : Option Bool) (o : List (String × JVal)) :
    ((LM.call b lm cst p m c o).lm = lm ∧
      isOkE (LM.call b lm cst p m c o).ret = false) ∨
    (∃ ent, (LM.call b lm cst p m c o).lm = { lm with history := lm.history ++ [ent] } ∧
      isOkE (LM.call b lm cst p m c o).ret = true) := by
  rcases hrc : routeCompletion b lm cst (c.getD lm.cache) (buildRequest lm p m o) with ⟨res, cst'⟩
  cases res with
  | error e => left; simp [LM.call, hrc, mkResult, isOkE]
  | ok r =>
    right
    refine ⟨⟨p, effectiveMessages p m, scrubKwargs (dictMerge lm.kwargs o), r,
      r.choices.map extractOutput, r.usage, r.cost⟩, ?_, ?_⟩ <;>
      simp [LM.call, hrc, mkResult, isOkE]

/-- A raising LM.__call__ leaves the whole client state unchanged. -/
theorem call_error_lm (b : Backend) (lm : LM) (cst : CacheState) (p : Option String)
    (m : Option (List Message)) (c : Option Bool) (o : List (String × JVal))
    (e : String) (h : (LM.call b lm cst p m c o).ret = .error e) :
    (LM.call b lm cst p m c o).lm = lm := by
  rcases call_cases b lm cst p m c o with ⟨hl, _⟩ | ⟨ent, _, hok⟩
  · exact hl
  · rw [h] at hok
    simp [isOkE] at hok

/-- The successful branch of LM.__call__, with its appended entry spelled
out. -/
theorem call_ok_entry (b : Backend) (lm : LM) (cst : CacheState) (p : Option String)
    (m : Option (List Message)) (c : Option Bool) (o : List (String × JVal))
    (r : Response) (cst' : CacheState)
    (h : routeCompletion b lm cst (c.getD lm.cache) (buildRequest lm p m o) = (.ok r, cst')) :
    LM.call b lm cst p m c o =
      ⟨.ok (r.choices.map extractOutput),
       { lm with history := lm.history ++
          [⟨p, effectiveMessages p m, scrubKwargs (dictMerge lm.kwargs o), r,
            r.choices.map extractOutput, r.usage, r.cost⟩] },
       cst'⟩ := by
  simp [LM.call, h, mkResult]

/-- LM.__call__ never changes the cache flag of the client. -/
theorem call_lm_cache (b : Backend) (lm : LM) (cst : CacheState) (p : Option String)
    (m : Option (List Message)) (c : Option Bool) (o : List (String × JVal)) :
    (LM.call b lm cst p m c o).lm.cache = lm.cache := by
  rcases call_cases b lm cst p m c o with ⟨hl, _⟩ | ⟨ent, hl, _⟩ <;> rw [hl]

/-- A cached chat call whose key is already memoized: served from the table,
the caching state untouched. -/
theorem call_cached_chat_hit (b : Backend) (lm : LM) (cst : CacheState)
    (p : Option String) (m : Option (List Message)) (c : Option Bool)
    (o : List (String × JVal)) (r : Response)
    (hc : c.getD lm.cache = true) (hmt : (lm.model_type == "chat") = true)
    (hl : lookupMemo cst.chatMemo (buildRequest lm p m o) = some r) :
    LM.call b lm cst p m c o =
      ⟨.ok (r.choices.map extractOutput),
       { lm with history := lm.history ++
          [⟨p, effectiveMessages p m, scrubKwargs (dictMerge lm.kwargs o), r,
            r.choices.map extractOutput, r.usage, r.cost⟩] },
       cst⟩ := by
  apply call_ok_entry
  simp [routeCompletion, cached_litellm_completion, hc, hmt, hl]

/-- A cached chat call whose key is fresh and whose transport call succeeds:
one transport invocation with the store-enabled directive, and the result is
memoized. -/
theorem call_cached_chat_miss (b : Backend) (lm : LM) (cst : CacheState)
    (p : Option String) (m : Option (List Message)) (c : Option Bool)
    (o : List (String × JVal)) (r : Response)
    (hc : c.getD lm.cache = true) (hmt : (lm.model_type == "chat") = true)
    (hl : lookupMemo cst.chatMemo (buildRequest lm p m o) = none)
    (hb : b (buildRequest lm p m o) cachedDirective = .ok r) :
    LM.call b lm cst p m c o =
      ⟨.ok (r.choices.map extractOutput),
       { lm with history := lm.history ++
          [⟨p, effectiveMessages p m, scrubKwargs (dictMerge lm.kwargs o), r,
            r.choices.map extractOutput, r.usage, r.cost⟩] },
       { cst with
          invocations := cst.invocations ++ [(buildRequest lm p m o, cachedDirective)],
          chatMemo := cst.chatMemo ++ [(buildRequest lm p m o, r)] }⟩ := by
  apply call_ok_entry
  simp [routeCompletion, cached_litellm_completion, litellm_completion, hc, hmt, hl, hb]

/-- A cached text call whose key is already memoized. -/
theorem call_cached_text_hit (b : Backend) (lm : LM) (cst : CacheState)
    (p : Option String) (m : Option (List Message)) (c : Option Bool)
    (o : List (String × JVal)) (r : Response)
    (hc : c.getD lm.cache = true) (hmt : (lm.model_type == "chat") = false)
    (hl : lookupMemo cst.textMemo (buildRequest lm p m o) = some r) :
    LM.call b lm cst p m c o =
      ⟨.ok (r.choices.map extractOutput),
       { lm with history := lm.history ++
          [⟨p, effectiveMessages p m, scrubKwargs (dictMerge lm.kwargs o), r,
            r.choices.map extractOutput, r.usage, r.cost⟩] },
       cst⟩ := by
  apply call_ok_entry
  simp [routeCompletion, cached_litellm_text_completion, hc, hmt, hl]

/-- A cached text call whose key is fresh and whose transport call
succeeds. -/
theorem call_cached_text_miss (b : Backend) (lm : LM) (cst : CacheState)
    (p : Option String) (m : Option (List Message)) (c : Option Bool)
    (o : List (String × JVal)) (r : Response)
    (hc : c.getD lm.cache = true) (hmt : (lm.model_type == "chat") = false)
    (hl : lookupMemo cst.textMemo (buildRequest lm p m o) = none)
    (hb : b (buildRequest lm p m o) cachedDirective = .ok r) :
    LM.call b lm cst p m c o =
      ⟨.ok (r.choices.map extractOutput),
       { lm with history := lm.history ++
          [⟨p, effectiveMessages p m, scrubKwargs (dictMerge lm.kwargs o), r,
            r.choices.map extractOutput, r.usage, r.cost⟩] },
       { cst with
          invocations := cst.invocations ++ [(buildRequest lm p m o, cachedDirective)],
          textMemo := cst.textMemo ++ [(buildRequest lm p m o, r)] }⟩ := by
  apply call_ok_entry
  simp [routeCompletion, cached_litellm_text_completion, litellm_text_completion, hc, hmt, hl, hb]

/-- With the effective cache flag false the call goes through the uncached
completion function: exactly one transport invocation, carrying the
no-cache/no-store directive, and no memo table is written. -/
theorem call_uncached_cst (b : Backend) (lm : LM) (cst : CacheState)
    (p : Option String) (m : Option (List Message)) (c : Option Bool)
    (o : List (String × JVal)) (hc : c.getD lm.cache = false) :
    (LM.call b lm cst p m c o).cst =
      { cst with invocations := cst.invocations ++ [(buildRequest lm p m o, uncachedDirective)] } := by
  rcases hb : b (buildRequest lm p m o) uncachedDirective with e | r <;>
    by_cases hmt : (lm.model_type == "chat") = true <;>
      simp [LM.call, routeCompletion, litellm_completion, litellm_text_completion,
        mkResult, hc, hmt, hb]

/-- Unfolding of one step of runCalls. -/
theorem runCalls_cons (b : Backend) (i : CallInput) (rest : List CallInput)
    (lm : LM) (cst : CacheState) :
    runCalls b (i :: rest) (lm, cst) =
      ((LM.call b lm cst i.prompt i.messages i.cacheArg i.ovr).ret ::
        (runCalls b rest ((LM.call b lm cst i.prompt i.messages i.cacheArg i.ovr).lm,
          (LM.call b lm cst i.prompt i.messages i.cacheArg i.ovr).cst)).1,
       (runCalls b rest ((LM.call b lm cst i.prompt i.messages i.cacheArg i.ovr).lm,
          (LM.call b lm cst i.prompt i.messages i.cacheArg i.ovr).cst)).2) := by
  rfl

/-- runCalls reports one outcome per invocation. -/
theorem runCalls_length (b : Backend) :
    ∀ (inputs : List CallInput) (lm : LM) (cst : CacheState),
      (runCalls b inputs (lm, cst)).1.length = inputs.length := by
  intro inputs
  induction inputs with
  | nil => intro lm cst; rfl
  | cons i rest ih =>
    intro lm cst
    rw [runCalls_cons]
    simp [ih]

/-- A run of invocations appends one history entry per successful outcome,
in completion order, and nothing else. -/
theorem runCalls_history (b : Backend) :
    ∀ (inputs : List CallInput) (lm : LM) (cst : CacheState),
      ∃ es : List HistoryEntry,
        (runCalls b inputs (lm, cst)).2.1.history = lm.history ++ es ∧
        es.length = (runCalls b inputs (lm, cst)).1.countP (fun x => isOkE x) := by
  intro inputs
  induction inputs with
  | nil => intro lm cst; exact ⟨[], by simp [runCalls], by rfl⟩
  | cons i rest ih =>
    intro lm cst
    rw [runCalls_cons]
    rcases call_cases b lm cst i.prompt i.messages i.cacheArg i.ovr with
      ⟨hlm, hok⟩ | ⟨ent, hlm, hok⟩
    · rcases ih (LM.call b lm cst i.prompt i.messages i.cacheArg i.ovr).lm
        (LM.call b lm cst i.prompt i.messages i.cacheArg i.ovr).cst with ⟨es, he, hlen⟩
      refine ⟨es, ?_, ?_⟩
      · rw [he, hlm]
      · simp [List.countP_cons, hok, hlen]
    · rcases ih (LM.call b lm cst i.prompt i.messages i.cacheArg i.ovr).lm
        (LM.call b lm cst i.prompt i.messages i.cacheArg i.ovr).cst with ⟨es, he, hlen⟩
      refine ⟨ent :: es, ?_, ?_⟩
      · rw [he, hlm]
        simp
      · simp [List.countP_cons, hok, hlen]

/-- With the cache flag disabled every repetition hits the transport: n
repetitions perform exactly n transport invocations. -/
theorem repeatCall_uncached (b : Backend) (p : Option String)
    (m : Option (List Message)) (c : Option Bool) (o : List (String × JVal)) :
    ∀ (n : Nat) (lm : LM) (cst : CacheState), c.getD lm.cache = false →
      (repeatCall b p m c o n (lm, cst)).2.invocations.length =
        cst.invocations.length + n := by
  intro n
  induction n with
  | zero => intro lm cst _; rfl
  | succ k ih =>
    intro lm cst hc
    have hc' : c.getD (LM.call b lm cst p m c o).lm.cache = false := by
      cases c with
      | none => simpa [Option.getD, call_lm_cache] using hc
      | some v => simpa [Option.getD] using hc
    have := ih (LM.call b lm cst p m c o).lm (LM.call b lm cst p m c o).cst hc'
    rw [show repeatCall b p m c o (k + 1) (lm, cst) =
        repeatCall b p m c o k ((LM.call b lm cst p m c o).lm, (LM.call b lm cst p m c o).cst)
      from rfl, this, call_uncached_cst b lm cst p m c o hc]
    simp
    omega

/-- A key absent from a dict looks up to nothing. -/
theorem lookupVal_eq_none (b : List (String × JVal)) (k : String)
    (h : k ∉ b.map Prod.fst) : lookupVal b k = none := by
  induction b with
  | nil => rfl
  | cons p rest ih =>
    simp only [List.map_cons, List.mem_cons, not_or] at h
    simp only [lookupVal]
    rw [if_neg, ih h.2]
    intro hbeq
    exact h.1 (eq_of_beq hbeq).symm

/-- dictInsert never loses a present key. -/
theorem containsKey_dictInsert (d : List (String × JVal)) (k : String) (v : JVal)
    (k' : String) (h : containsKey d k' = true) :
    containsKey (dictInsert d k v) k' = true := by
  unfold dictInsert
  split
  · simp only [containsKey, List.any_eq_true] at h ⊢
    rcases h with ⟨p, hp, hbeq⟩
    refine ⟨if p.1 == k then (k, v) else p, List.mem_map_of_mem _ hp, ?_⟩
    split
    · rename_i hk
      have hk1 : p.1 = k := eq_of_beq hk
      have hk2 : p.1 = k' := eq_of_beq hbeq
      simp [hk1.symm.trans hk2]
    · exact hbeq
  · simp only [containsKey, List.any_append, Bool.or_eq_true]
    exact Or.inl h

/-- Updating a key already present rewrites it in place. -/
theorem dictInsert_override (d : List (String × JVal)) (k : String) (v : JVal)
    (h : containsKey d k = true) :
    dictInsert d k v = d.map (fun p => if p.1 == k then (k, v) else p) := by
  simp [dictInsert, h]

/-- When the overrides only touch keys already present in the defaults, the
merged dict is the defaults with values rewritten pointwise: the insertion
order of the overrides is immaterial, only the key-value mapping counts. -/
theorem dictMerge_override_map :
    ∀ (b a : List (String × JVal)),
      (∀ p ∈ b, containsKey a p.1 = true) → (b.map Prod.fst).Nodup →
      dictMerge a b =
        a.map (fun p =>
          match lookupVal b p.1 with
          | some v => (p.1, v)
          | none => p) := by
  intro b
  induction b with
  | nil =>
    intro a _ _
    have hfun : (fun (p : String × JVal) =>
        match lookupVal [] p.1 with
        | some v => (p.1, v)
        | none => p) = fun p => p := by
      funext p
      rfl
    rw [hfun]
    simp [dictMerge]
  | cons q rest ih =>
    intro a hsub hnd
    have hq : containsKey a q.1 = true := hsub q (List.mem_cons_self q rest)
    have hndq : q.1 ∉ rest.map Prod.fst := by
      simp only [List.map_cons, List.nodup_cons] at hnd
      exact hnd.1
    have hndr : (rest.map Prod.fst).Nodup := by
      simp only [List.map_cons, List.nodup_cons] at hnd
      exact hnd.2
    have hsub' : ∀ p ∈ rest, containsKey (dictInsert a q.1 q.2) p.1 = true := by
      intro p hp
      exact containsKey_dictInsert a q.1 q.2 p.1 (hsub p (List.mem_cons_of_mem q hp))
    have hstep : dictMerge a (q :: rest) = dictMerge (dictInsert a q.1 q.2) rest := by
      simp [dictMerge]
    rw [hstep, ih (dictInsert a q.1 q.2) hsub' hndr, dictInsert_override a q.1 q.2 hq,
      List.map_map]
    apply List.map_congr_left
    intro p _
    by_cases hpq : (p.1 == q.1) = true
    · have hpq' : p.1 = q.1 := eq_of_beq hpq
      have hnone : lookupVal rest q.1 = none := lookupVal_eq_none rest q.1 hndq
      simp [Function.comp, lookupVal, hpq', hnone]
    · have hpq0 : (p.1 == q.1) = false := Bool.eq_false_iff.mpr hpq
      have hqp0 : (q.1 == p.1) = false :=
        Bool.eq_false_iff.mpr (fun h => hpq (beq_of_eq (eq_of_beq h).symm))
      simp [Function.comp, lookupVal, hpq0, hqp0]

/-- Every kwargs pair appears literally, key then rendered value, in the
serialized tail. -/
theorem renderPairsTail_split :
    ∀ (kwargs : List (String × JVal)) (pair : String × JVal), pair ∈ kwargs →
      ∃ pre post, renderPairsTail kwargs = pre ++ renderPair pair ++ post := by
  intro kwargs
  induction kwargs with
  | nil => intro pair h; exact absurd h (List.not_mem_nil pair)
  | cons p rest ih =>
    intro pair h
    rcases List.mem_cons.mp h with heq | hmem
    · subst heq
      exact ⟨",", renderPairsTail rest, rfl⟩
    · rcases ih pair hmem with ⟨pre, post, hsplit⟩
      refine ⟨"," ++ renderPair p ++ pre, post, ?_⟩
      show "," ++ renderPair p ++ renderPairsTail rest = _
      rw [hsplit]
      simp [strAppendAssoc]

/-- Every kwargs pair appears literally in the serialized request string. -/
theorem serializeRequest_hasPair (model : String) (messages : List Message)
    (kwargs : List (String × JVal)) (pair : String × JVal) (h : pair ∈ kwargs) :
    ∃ pre post, serializeRequest model messages kwargs = pre ++ renderPair pair ++ post := by
  rcases renderPairsTail_split kwargs pair h with ⟨pre, post, hsplit⟩
  refine ⟨"\x7b\"model\":\"" ++ model ++ "\",\"messages\":" ++ renderMessages messages ++ pre,
    post ++ "\x7d", ?_⟩
  show "\x7b\"model\":\"" ++ model ++ "\",\"messages\":" ++ renderMessages messages
      ++ renderPairsTail kwargs ++ "\x7d" = _
  rw [hsplit]
  simp [strAppendAssoc]

/-! Claim theorems. -/

/-- C2: the code contradicts its own comment (cost is None on cache hit).
Two identical sequential calls against a transport reporting cost 3 perform
one transport invocation in total, so the second call is served from the
lru_cache; yet the memoized response still carries its hidden cost, and the
second HistoryEntry records cost 3, not None. -/
theorem claim2_cached_cost_bug :
    c2second.cst.invocations.length = 1 ∧
    c2second.lm.history.map (fun e => e.cost) = [some 3, some 3] ∧
    some (3 : ℚ) ≠ (none : Option ℚ) := by
  refine ⟨by decide, by decide, by decide⟩

/-- C7: constructing an LM for a model containing the o1- marker with
temperature 0.0 fails for every max_tokens; with temperature 1.0 and
max_tokens 5000 it succeeds; models outside the family construct for any
temperature and max_tokens. -/
theorem claim7_o1_guard :
    (∀ (model mt : String) (mx : ℤ) (ca : Bool) (kw : List (String × JVal)),
      strContains model "o1-" = true →
      isOkE (LM.init model mt 0 mx ca kw) = false) ∧
    (∀ (model mt : String) (ca : Bool) (kw : List (String × JVal)),
      strContains model "o1-" = true →
      isOkE (LM.init model mt 1 5000 ca kw) = true) ∧
    (∀ (model mt : String) (t : ℚ) (mx : ℤ) (ca : Bool) (kw : List (String × JVal)),
      strContains model "o1-" = false →
      isOkE (LM.init model mt t mx ca kw) = true) := by
  refine ⟨?_, ?_, ?_⟩
  · intro model mt mx ca kw h
    simp only [LM.init, h, if_true]
    rw [if_neg]
    · rfl
    · rintro ⟨-, h1⟩
      norm_num at h1
  · intro model mt ca kw h
    simp only [LM.init, h, if_true]
    rw [if_pos]
    · rfl
    · exact ⟨by norm_num, by norm_num⟩
  · intro model mt t mx ca kw h
    simp [LM.init, h, isOkE]

/-- C7 witness: the guard evaluated on o1-mini and on gpt-4o-mini. -/
theorem claim7_o1_guard_witness :
    isOkE (LM.init "o1-mini" "chat" 0 200000 true []) = false ∧
    isOkE (LM.init "o1-mini" "chat" 1 5000 true []) = true ∧
    isOkE (LM.init "gpt-4o-mini" "chat" 0 1000 true []) = true :=
  ⟨claim7_o1_guard.1 "o1-mini" "chat" 200000 true [] (by decide),
   claim7_o1_guard.2.1 "o1-mini" "chat" true [] (by decide),
   claim7_o1_guard.2.2 "gpt-4o-mini" "chat" 0 1000 true [] (by decide)⟩

/-- C8: with the experimental flag unset finetune fails synchronously and
submits nothing; with it set but neither provider predicate matching it
fails with the unsupported-model error and submits nothing; with a matching
provider it returns that provider's job handle after exactly one submission
to a one-worker executor shut down without waiting. -/
theorem claim8_finetune_dispatch (isO isA : String → Bool) (lm : LM)
    (pairs : List (Message × String)) (config : List (String × JVal)) :
    LM.finetune isO isA false lm pairs config =
      (.error "Fine-tuning is an experimental feature and requires settings.experimental True", []) ∧
    (isO lm.model = false → isA lm.model = false →
      LM.finetune isO isA true lm pairs config =
        (.error "Fine-tuning is not supported for the model", [])) ∧
    (isO lm.model = true →
      LM.finetune isO isA true lm pairs config =
        (.ok .openaiJob, [⟨.openaiJob, 1, false⟩])) ∧
    (isO lm.model = false → isA lm.model = true →
      LM.finetune isO isA true lm pairs config =
        (.ok .anyscaleJob, [⟨.anyscaleJob, 1, false⟩])) := by
  refine ⟨by simp [LM.finetune], ?_, ?_, ?_⟩
  · intro h1 h2
    simp [LM.finetune, h1, h2]
  · intro h1
    simp [LM.finetune, h1]
  · intro h1 h2
    simp [LM.finetune, h1, h2]

/-- C8 witness: the three dispatch outcomes at concrete predicates. -/
theorem claim8_finetune_dispatch_witness :
    LM.finetune (fun m => m == "gpt-4") (fun m => m == "llama") false lm0 [] [] =
      (.error "Fine-tuning is an experimental feature and requires settings.experimental True", []) ∧
    LM.finetune (fun m => m == "gpt-4") (fun m => m == "llama") true lm0 [] [] =
      (.error "Fine-tuning is not supported for the model", []) ∧
    LM.finetune (fun _ => true) (fun m => m == "llama") true lm0 [] [] =
      (.ok .openaiJob, [⟨.openaiJob, 1, false⟩]) ∧
    LM.finetune (fun _ => false) (fun _ => true) true lm0 [] [] =
      (.ok .anyscaleJob, [⟨.anyscaleJob, 1, false⟩]) :=
  ⟨(claim8_finetune_dispatch (fun m => m == "gpt-4") (fun m => m == "llama") lm0 [] []).1,
   (claim8_finetune_dispatch (fun m => m == "gpt-4") (fun m => m == "llama") lm0 [] []).2.1
     (by decide) (by decide),
   (claim8_finetune_dispatch (fun _ => true) (fun m => m == "llama") lm0 [] []).2.2.1 rfl,
   (claim8_finetune_dispatch (fun _ => false) (fun _ => true) lm0 [] []).2.2.2 rfl rfl⟩

/-- C9 counterexample: supplying both a prompt and an (empty) messages list
does not give the messages argument precedence; the Python `or` falls back
to the prompt wrapper, so the prompt is not ignored. -/
theorem claim9_messages_precedence_counterexample :
    effectiveMessages (some "2+2=") (some []) = [⟨"user", some "2+2="⟩] ∧
    effectiveMessages (some "3+3=") (some []) = [⟨"user", some "3+3="⟩] ∧
    effectiveMessages (some "2+2=") (some []) ≠ ([] : List Message) ∧
    effectiveMessages (some "2+2=") (some []) ≠ effectiveMessages (some "3+3=") (some []) := by
  refine ⟨rfl, rfl, by decide, by decide⟩

/-- C9 amended: a non-empty messages argument takes precedence over a
supplied prompt; an empty or absent messages argument falls back to one user
message wrapping the prompt, in particular a call with neither prompt nor
messages builds one user message with content None instead of failing. -/
theorem claim9_messages_precedence_amended :
    (∀ (prompt : Option String) (ms : List Message), ms ≠ [] →
      effectiveMessages prompt (some ms) = ms) ∧
    (∀ prompt, effectiveMessages prompt none = [⟨"user", prompt⟩]) ∧
    effectiveMessages none none = [⟨"user", none⟩] := by
  refine ⟨?_, fun prompt => rfl, rfl⟩
  intro prompt ms h
  cases ms with
  | nil => exact absurd rfl h
  | cons m rest => rfl

/-- C9 witness: precedence of a concrete non-empty messages list. -/
theorem claim9_messages_precedence_amended_witness :
    effectiveMessages (some "ignored") (some [⟨"system", some "hi"⟩]) = [⟨"system", some "hi"⟩] ∧
    effectiveMessages none none = [⟨"user", none⟩] :=
  ⟨claim9_messages_precedence_amended.1 (some "ignored") [⟨"system", some "hi"⟩] (by decide),
   claim9_messages_precedence_amended.2.2⟩

/-- C10: for a model the predicate does not classify as self-hosted, launch
and kill return the client unchanged: model, model type, cache flag, kwargs
and history are all identical. -/
theorem claim10_launch_kill_frame (is_self_hosted_model : String → Bool) (lm : LM)
    (h : is_self_hosted_model lm.model = false) :
    LM.launch is_self_hosted_model lm = lm ∧ LM.kill is_self_hosted_model lm = lm := by
  constructor <;> simp [LM.launch, LM.kill, h]

/-- C10 witness: launch and kill on the concrete non-self-hosted client. -/
theorem claim10_launch_kill_frame_witness :
    LM.launch (fun _ => false) lm0 = lm0 ∧ LM.kill (fun _ => false) lm0 = lm0 :=
  claim10_launch_kill_frame (fun _ => false) lm0 rfl

/-- C1 counterexample: two invocations of the constructed client with the
same model, the same messages and the same parameter values, the values
supplied as a permutation of each other, produce different canonical
serialized request strings: ujson.dumps keeps insertion order and sorts
nothing. -/
theorem claim1_canonical_key_counterexample :
    List.Perm [("n1", JVal.jstr "v1"), ("n2", JVal.jstr "v2")]
      [("n2", JVal.jstr "v2"), ("n1", JVal.jstr "v1")] ∧
    buildRequest lm0 (some "2+2=") none [("n1", JVal.jstr "v1"), ("n2", JVal.jstr "v2")] ≠
      buildRequest lm0 (some "2+2=") none [("n2", JVal.jstr "v2"), ("n1", JVal.jstr "v1")] := by
  constructor
  · decide
  · decide

/-- C1 amended: the canonical request string is insertion-order independent
exactly when every per-call parameter key already appears among the instance
defaults; then two override dicts with the same key-value mapping, in any
orders, serialize identically.  Overrides introducing new keys in different
orders yield different strings, as the counterexample shows. -/
theorem claim1_canonical_key_amended (lm : LM) (prompt : Option String)
    (messages : Option (List Message)) (ovr1 ovr2 : List (String × JVal))
    (h1 : ∀ p ∈ ovr1, containsKey lm.kwargs p.1 = true)
    (h2 : ∀ p ∈ ovr2, containsKey lm.kwargs p.1 = true)
    (hn1 : (ovr1.map Prod.fst).Nodup)
    (hn2 : (ovr2.map Prod.fst).Nodup)
    (hvals : ∀ k, lookupVal ovr1 k = lookupVal ovr2 k) :
    buildRequest lm prompt messages ovr1 = buildRequest lm prompt messages ovr2 := by
  unfold buildRequest
  rw [dictMerge_override_map ovr1 lm.kwargs h1 hn1,
    dictMerge_override_map ovr2 lm.kwargs h2 hn2]
  congr 1
  apply List.map_congr_left
  intro p _
  rw [hvals p.1]

/-- C1 witness: overriding only the default sampling keys, in the two
possible orders, gives one and the same cache key. -/
theorem claim1_canonical_key_amended_witness :
    buildRequest lm0 (some "2+2=") none
        [("temperature", JVal.jnum 1), ("max_tokens", JVal.jint 50)] =
      buildRequest lm0 (some "2+2=") none
        [("max_tokens", JVal.jint 50), ("temperature", JVal.jnum 1)] :=
  claim1_canonical_key_amended lm0 (some "2+2=") none
    [("temperature", JVal.jnum 1), ("max_tokens", JVal.jint 50)]
    [("max_tokens", JVal.jint 50), ("temperature", JVal.jnum 1)]
    (by decide) (by decide) (by decide) (by decide)
    (fun k => by
      by_cases hb1 : ("temperature" == k) = true <;>
        by_cases hb2 : ("max_tokens" == k) = true
      · exact absurd ((eq_of_beq hb1).trans (eq_of_beq hb2).symm) (by decide)
      all_goals simp [lookupVal, hb1, hb2])

/-- C4: a run of invocations appends exactly one HistoryEntry per
successful call, appended in completion order after the preexisting
history; all-successful runs of length N append exactly N entries; an
invocation whose completion call raises leaves the client, its history
included, unchanged. -/
theorem claim4_history_discipline (b : Backend) (lm : LM) (cst : CacheState) :
    (∀ inputs : List CallInput,
      ∃ es : List HistoryEntry,
        (runCalls b inputs (lm, cst)).2.1.history = lm.history ++ es ∧
        es.length = (runCalls b inputs (lm, cst)).1.countP (fun x => isOkE x)) ∧
    (∀ inputs : List CallInput,
      (∀ x ∈ (runCalls b inputs (lm, cst)).1, isOkE x = true) →
      (runCalls b inputs (lm, cst)).2.1.history.length =
        lm.history.length + inputs.length) ∧
    (∀ (p : Option String) (m : Option (List Message)) (c : Option Bool)
        (o : List (String × JVal)) (e : String),
      (LM.call b lm cst p m c o).ret = .error e →
      (LM.call b lm cst p m c o).lm = lm) := by
  refine ⟨fun inputs => runCalls_history b inputs lm cst, ?_, call_error_lm b lm cst⟩
  intro inputs hall
  rcases runCalls_history b inputs lm cst with ⟨es, he, hlen⟩
  have hcnt : (runCalls b inputs (lm, cst)).1.countP (fun x => isOkE x) =
      (runCalls b inputs (lm, cst)).1.length :=
    List.countP_eq_length.mpr hall
  rw [he, List.length_append, hlen, hcnt, runCalls_length b inputs lm cst]

/-- C4 witness: two successful calls append two entries; a raising call
leaves the client untouched. -/
theorem claim4_history_discipline_witness :
    (runCalls demoBackend [⟨some "a", none, none, []⟩, ⟨some "b", none, none, []⟩]
        (lm0, cst0)).2.1.history.length = lm0.history.length + 2 ∧
    (LM.call errBackend lm0 cst0 (some "x") none none []).lm = lm0 :=
  ⟨(claim4_history_discipline demoBackend lm0 cst0).2.1
      [⟨some "a", none, none, []⟩, ⟨some "b", none, none, []⟩] (by decide),
   (claim4_history_discipline errBackend lm0 cst0).2.2 (some "x") none none [] "boom" rfl⟩

/-- C5: with the effective cache flag false the call is handled by the
uncached completion function, whose transport invocation carries the
directive with no-cache and no-store both set; every call adds exactly one
invocation, so n repetitions of the same request perform n transport
invocations. -/
theorem claim5_cache_bypass (b : Backend) (lm : LM) (cst : CacheState)
    (p : Option String) (m : Option (List Message)) (c : Option Bool)
    (o : List (String × JVal)) (hc : c.getD lm.cache = false) :
    (LM.call b lm cst p m c o).cst =
      { cst with invocations :=
          cst.invocations ++ [(buildRequest lm p m o, uncachedDirective)] } ∧
    uncachedDirective.noCache = true ∧ uncachedDirective.noStore = true ∧
    (∀ n : Nat, (repeatCall b p m c o n (lm, cst)).2.invocations.length =
      cst.invocations.length + n) :=
  ⟨call_uncached_cst b lm cst p m c o hc, rfl, rfl,
   fun n => repeatCall_uncached b p m c o n lm cst hc⟩

/-- C5 witness: the bypassing call at a concrete client and three
repetitions of it. -/
theorem claim5_cache_bypass_witness :
    (LM.call demoBackend lm0 cst0 (some "x") none (some false) []).cst =
      { cst0 with invocations :=
          cst0.invocations ++ [(buildRequest lm0 (some "x") none [], uncachedDirective)] } ∧
    uncachedDirective.noCache = true ∧ uncachedDirective.noStore = true ∧
    (repeatCall demoBackend (some "x") none (some false) [] 3 (lm0, cst0)).2.invocations.length =
      cst0.invocations.length + 3 :=
  ⟨(claim5_cache_bypass demoBackend lm0 cst0 (some "x") none (some false) [] rfl).1,
   rfl, rfl,
   (claim5_cache_bypass demoBackend lm0 cst0 (some "x") none (some false) [] rfl).2.2.2 3⟩

/-- C6: a successful call appends one HistoryEntry whose recorded kwargs
hold no api_-prefixed key, while every api_-prefixed pair of the merged
kwargs still occurs literally, key and rendered value, inside the request
string handed to the completion function. -/
theorem claim6_credential_scrub (b : Backend) (lm : LM) (cst : CacheState)
    (p : Option String) (m : Option (List Message)) (c : Option Bool)
    (o : List (String × JVal)) (outs : List String)
    (h : (LM.call b lm cst p m c o).ret = .ok outs) :
    ∃ ent : HistoryEntry,
      (LM.call b lm cst p m c o).lm.history = lm.history ++ [ent] ∧
      (∀ pair ∈ ent.kwargs, isApiKeyParam pair.1 = false) ∧
      (∀ pair ∈ dictMerge lm.kwargs o, isApiKeyParam pair.1 = true →
        ∃ pre post, buildRequest lm p m o = pre ++ renderPair pair ++ post) := by
  rcases hrc : routeCompletion b lm cst (c.getD lm.cache) (buildRequest lm p m o) with ⟨res, cst'⟩
  cases res with
  | error e =>
    exfalso
    have he : (LM.call b lm cst p m c o).ret = .error e := by
      simp [LM.call, hrc, mkResult]
    rw [h] at he
    exact Except.noConfusion he
  | ok r =>
    have hcall := call_ok_entry b lm cst p m c o r cst' hrc
    refine ⟨⟨p, effectiveMessages p m, scrubKwargs (dictMerge lm.kwargs o), r,
      r.choices.map extractOutput, r.usage, r.cost⟩, by rw [hcall], ?_, ?_⟩
    · intro pair hpair
      have hf := List.of_mem_filter hpair
      simpa using hf
    · intro pair hpair _
      exact serializeRequest_hasPair lm.model (effectiveMessages p m)
        (dictMerge lm.kwargs o) pair hpair

/-- C6 witness: the scrub property at a client whose kwargs carry an
api_key parameter. -/
theorem claim6_credential_scrub_witness :
    ∃ ent : HistoryEntry,
      (LM.call demoBackend lmApi cst0 (some "2+2=") none none []).lm.history =
        lmApi.history ++ [ent] ∧
      (∀ pair ∈ ent.kwargs, isApiKeyParam pair.1 = false) ∧
      (∀ pair ∈ dictMerge lmApi.kwargs [], isApiKeyParam pair.1 = true →
        ∃ pre post, buildRequest lmApi (some "2+2=") none [] =
          pre ++ renderPair pair ++ post) :=
  claim6_credential_scrub demoBackend lmApi cst0 (some "2+2=") none none []
    (demoResponse.choices.map extractOutput) rfl

/-- C3: two sequential invocations with caching enabled whose canonical
request strings are equal, against a transport that answers that request,
perform at most one transport invocation in total and return the same
outputs. -/
theorem claim3_idempotent_cached (b : Backend) (lm : LM) (cst : CacheState)
    (p1 p2 : Option String) (m1 m2 : Option (List Message))
    (c1 c2 : Option Bool) (o1 o2 : List (String × JVal)) (r : Response)
    (hc1 : c1.getD lm.cache = true) (hc2 : c2.getD lm.cache = true)
    (hreq : buildRequest lm p2 m2 o2 = buildRequest lm p1 m1 o1)
    (hb : b (buildRequest lm p1 m1 o1) cachedDirective = .ok r) :
    (LM.call b (LM.call b lm cst p1 m1 c1 o1).lm (LM.call b lm cst p1 m1 c1 o1).cst
        p2 m2 c2 o2).cst.invocations.length ≤ cst.invocations.length + 1 ∧
    ∃ outs,
      (LM.call b lm cst p1 m1 c1 o1).ret = .ok outs ∧
      (LM.call b (LM.call b lm cst p1 m1 c1 o1).lm (LM.call b lm cst p1 m1 c1 o1).cst
        p2 m2 c2 o2).ret = .ok outs := by
  by_cases hmt : (lm.model_type == "chat") = true
  · rcases hl : lookupMemo cst.chatMemo (buildRequest lm p1 m1 o1) with _ | r0
    · have e1 := call_cached_chat_miss b lm cst p1 m1 c1 o1 r hc1 hmt hl hb
      have hl2 : lookupMemo (cst.chatMemo ++ [(buildRequest lm p1 m1 o1, r)])
          (buildRequest lm p2 m2 o2) = some r := by
        rw [hreq]
        exact lookupMemo_append_self cst.chatMemo (buildRequest lm p1 m1 o1) r hl
      have e2 := call_cached_chat_hit b
        { lm with history := lm.history ++
            [⟨p1, effectiveMessages p1 m1, scrubKwargs (dictMerge lm.kwargs o1), r,
              r.choices.map extractOutput, r.usage, r.cost⟩] }
        { cst with
            invocations := cst.invocations ++ [(buildRequest lm p1 m1 o1, cachedDirective)],
            chatMemo := cst.chatMemo ++ [(buildRequest lm p1 m1 o1, r)] }
        p2 m2 c2 o2 r hc2 hmt hl2
      rw [e1]
      dsimp only
      rw [e2]
      refine ⟨by simp, ⟨r.choices.map extractOutput, rfl, rfl⟩⟩
    · have e1 := call_cached_chat_hit b lm cst p1 m1 c1 o1 r0 hc1 hmt hl
      have hl2 : lookupMemo cst.chatMemo (buildRequest lm p2 m2 o2) = some r0 := by
        rw [hreq]
        exact hl
      have e2 := call_cached_chat_hit b
        { lm with history := lm.history ++
            [⟨p1, effectiveMessages p1 m1, scrubKwargs (dictMerge lm.kwargs o1), r0,
              r0.choices.map extractOutput, r0.usage, r0.cost⟩] }
        cst p2 m2 c2 o2 r0 hc2 hmt hl2
      rw [e1]
      dsimp only
      rw [e2]
      refine ⟨by simp, ⟨r0.choices.map extractOutput, rfl, rfl⟩⟩
  · have hmtf : (lm.model_type == "chat") = false := Bool.eq_false_iff.mpr hmt
    rcases hl : lookupMemo cst.textMemo (buildRequest lm p1 m1 o1) with _ | r0
    · have e1 := call_cached_text_miss b lm cst p1 m1 c1 o1 r hc1 hmtf hl hb
      have hl2 : lookupMemo (cst.textMemo ++ [(buildRequest lm p1 m1 o1, r)])
          (buildRequest lm p2 m2 o2) = some r := by
        rw [hreq]
        exact lookupMemo_append_self cst.textMemo (buildRequest lm p1 m1 o1) r hl
      have e2 := call_cached_text_hit b
        { lm with history := lm.history ++
            [⟨p1, effectiveMessages p1 m1, scrubKwargs (dictMerge lm.kwargs o1), r,
              r.choices.map extractOutput, r.usage, r.cost⟩] }
        { cst with
            invocations := cst.invocations ++ [(buildRequest lm p1 m1 o1, cachedDirective)],
            textMemo := cst.textMemo ++ [(buildRequest lm p1 m1 o1, r)] }
        p2 m2 c2 o2 r hc2 hmtf hl2
      rw [e1]
      dsimp only
      rw [e2]
      refine ⟨by simp, ⟨r.choices.map extractOutput, rfl, rfl⟩⟩
    · have e1 := call_cached_text_hit b lm cst p1 m1 c1 o1 r0 hc1 hmtf hl
      have hl2 : lookupMemo cst.textMemo (buildRequest lm p2 m2 o2) = some r0 := by
        rw [hreq]
        exact hl
      have e2 := call_cached_text_hit b
        { lm with history := lm.history ++
            [⟨p1, effectiveMessages p1 m1, scrubKwargs (dictMerge lm.kwargs o1), r0,
              r0.choices.map extractOutput, r0.usage, r0.cost⟩] }
        cst p2 m2 c2 o2 r0 hc2 hmtf hl2
      rw [e1]
      dsimp only
      rw [e2]
      refine ⟨by simp, ⟨r0.choices.map extractOutput, rfl, rfl⟩⟩

/-- C3 witness: two identical calls on the fresh concrete client. -/
theorem claim3_idempotent_cached_witness :
    (LM.call demoBackend (LM.call demoBackend lm0 cst0 (some "2+2=") none none []).lm
        (LM.call demoBackend lm0 cst0 (some "2+2=") none none []).cst
        (some "2+2=") none none []).cst.invocations.length ≤ cst0.invocations.length + 1 ∧
    ∃ outs,
      (LM.call demoBackend lm0 cst0 (some "2+2=") none none []).ret = .ok outs ∧
      (LM.call demoBackend (LM.call demoBackend lm0 cst0 (some "2+2=") none none []).lm
        (LM.call demoBackend lm0 cst0 (some "2+2=") none none []).cst
        (some "2+2=") none none []).ret = .ok outs :=
  claim3_idempotent_cached demoBackend lm0 cst0 (some "2+2=") (some "2+2=") none none
    none none [] [] demoResponse rfl rfl rfl rfl

end DspyLM
